import Mathlib

/-!
Shallow embedding of the SpaceReport dashboard page
(src/pages/2_Application_Drive.py).

A dataframe of space readings is a `List Row`; a pandas `Timestamp` is a
count of seconds (`Nat`), its `.date()` conversion is division by 86400,
and a `Timedelta.days` of a non-negative delta is likewise division of the
second count by 86400.  Float columns are modelled as `Rat`.  The pure
helpers (`get_status_class`, `get_status_text`, `get_border_color`,
`get_date_range`, `get_latest_stats`) and the inline filtering, growth and
search logic of `main` are translated below.
-/

/-- One space reading: a row of the `Application` table after
`df['Date'] = pd.to_datetime(df['Date'])`. -/
structure Row where
  Date : Nat
  Drive : String
  TotalSizeGB : Rat
  UsedSpaceGB : Rat
  FreeSpaceGB : Rat
  FreeSpacePercent : Rat
deriving DecidableEq

/-- `Timestamp.date()`: the calendar day index of a timestamp in seconds. -/
def tsDate (t : Nat) : Nat := t / 86400

/-- `get_status_class`: CSS class from free-space percentage. -/
def get_status_class (free_percent : Rat) : String :=
  if free_percent < 5 then "status-emergency"
  else if free_percent < 10 then "status-critical"
  else if free_percent < 20 then "status-warning"
  else "status-healthy"

/-- `get_status_text`: status label from free-space percentage. -/
def get_status_text (free_percent : Rat) : String :=
  if free_percent < 5 then "Emergency"
  else if free_percent < 10 then "Critical"
  else if free_percent < 20 then "Warning"
  else "Healthy"

/-- `get_border_color`: border color from free-space percentage. -/
def get_border_color (free_percent : Rat) : String :=
  if free_percent < 5 then "#ff6b6b"
  else if free_percent < 10 then "#ff8787"
  else if free_percent < 20 then "#ffd43b"
  else "#51cf66"

/-- `get_date_range`: `(today, today)` on an empty frame, otherwise the
minimum and maximum `Date` converted with `.date()`.  `date.today()` is an
explicit parameter. -/
def get_date_range (today : Nat) (df : List Row) : Nat × Nat :=
  match df with
  | [] => (today, today)
  | r :: rs =>
      (tsDate ((rs.map Row.Date).foldl min r.Date),
       tsDate ((rs.map Row.Date).foldl max r.Date))

/-- The `if selected_drives: df = df[df['Drive'].isin(selected_drives)]`
step of `get_latest_stats` (an empty selection, like `None`, is falsy and
leaves the frame unfiltered). -/
def driveFilter (df : List Row) (selected_drives : List String) : List Row :=
  if selected_drives.isEmpty then df
  else df.filter (fun r => selected_drives.contains r.Drive)

/-- Descending-date comparison used by `sort_values('Date', ascending=False)`. -/
def dateGE (a b : Row) : Prop := b.Date ≤ a.Date

instance : DecidableRel dateGE :=
  fun a b => inferInstanceAs (Decidable (b.Date ≤ a.Date))

instance : IsTotal Row dateGE :=
  ⟨fun a b => (Nat.le_total a.Date b.Date).symm⟩

instance : IsTrans Row dateGE :=
  ⟨fun _ _ _ hab hbc => Nat.le_trans hbc hab⟩

/-- Ascending-date comparison used by `sort_values('Date')`. -/
def dateLE (a b : Row) : Prop := a.Date ≤ b.Date

instance : DecidableRel dateLE :=
  fun a b => inferInstanceAs (Decidable (a.Date ≤ b.Date))

instance : IsTotal Row dateLE :=
  ⟨fun a b => Nat.le_total a.Date b.Date⟩

instance : IsTrans Row dateLE :=
  ⟨fun _ _ _ hab hbc => Nat.le_trans hab hbc⟩

/-- Lexicographic code-point comparison of character lists, the order
Python uses on strings. -/
def strLeAux : List Char → List Char → Bool
  | [], _ => true
  | _ :: _, [] => false
  | a :: as, b :: bs =>
      if a.toNat < b.toNat then true
      else if b.toNat < a.toNat then false
      else strLeAux as bs

/-- Lexicographic code-point comparison of strings. -/
def strLe (a b : String) : Bool := strLeAux a.data b.data

/-- Group-key comparison: `groupby('Drive')` returns its groups with the
keys in ascending (lexicographic) order. -/
def driveLE (a b : Row) : Prop := strLe a.Drive b.Drive = true

instance : DecidableRel driveLE :=
  fun a b => inferInstanceAs (Decidable (strLe a.Drive b.Drive = true))

/-- Worker for `firstByDrive`: drop every row whose drive was already
seen, keep the first row of each new drive. -/
def firstByDriveAux (seen : List String) : List Row → List Row
  | [] => []
  | r :: rs =>
      if r.Drive ∈ seen then firstByDriveAux seen rs
      else r :: firstByDriveAux (r.Drive :: seen) rs

/-- `groupby('Drive').first()` on an already-sorted frame: keep the first
occurrence of each drive, in order of first appearance. -/
def firstByDrive (l : List Row) : List Row := firstByDriveAux [] l

/-- `df.sort_values('Date', ascending=False).groupby('Drive').first().reset_index()`:
one row per drive, the most recent one (keys in ascending drive order). -/
def latestRows (df : List Row) : List Row :=
  List.insertionSort driveLE (firstByDrive (List.insertionSort dateGE df))

/-- The dictionary returned by `get_latest_stats`. -/
structure Stats where
  total_size : Rat
  total_used : Rat
  total_free : Rat
  avg_free_percent : Rat
  critical_drives : Nat
  latest_data : List Row
deriving DecidableEq

/-- `get_latest_stats`: `None` on an empty frame or an empty drive-filtered
frame, otherwise sums, mean and critical count over the per-drive latest
rows. -/
def get_latest_stats (df : List Row) (selected_drives : List String) : Option Stats :=
  if df.isEmpty then none
  else
    let df2 := driveFilter df selected_drives
    if df2.isEmpty then none
    else
      let latest := latestRows df2
      some {
        total_size := (latest.map Row.TotalSizeGB).sum
        total_used := (latest.map Row.UsedSpaceGB).sum
        total_free := (latest.map Row.FreeSpaceGB).sum
        avg_free_percent := (latest.map Row.FreeSpacePercent).sum / (latest.length : Rat)
        critical_drives := (latest.filter (fun r => r.FreeSpacePercent < 10)).length
        latest_data := latest }

/-- The date filter of `main`:
`df[(df['Date'].dt.date >= start_date) & (df['Date'].dt.date <= end_date)]`. -/
def filterByDateRange (df : List Row) (start_date end_date : Nat) : List Row :=
  df.filter (fun r => decide (start_date ≤ tsDate r.Date) && decide (tsDate r.Date ≤ end_date))

/-- One entry of `growth_data` in the Distribution tab. -/
structure GrowthRow where
  Drive : String
  Initial : Rat
  Current : Rat
  Growth : Rat
  avg_daily_growth : Rat
deriving DecidableEq

/-- The per-drive frame of the growth loop:
`drive_df = filtered_df[filtered_df['Drive'] == drive].sort_values('Date')`. -/
def sortedDriveRows (filtered_df : List Row) (drive : String) : List Row :=
  List.insertionSort dateLE (filtered_df.filter (fun r => r.Drive == drive))

/-- The per-drive body of the growth loop: with fewer than 2 rows produce
nothing, otherwise growth is last minus first `UsedSpaceGB` and average
daily growth divides by the whole-day span unless that span is 0. -/
def driveGrowth (filtered_df : List Row) (drive : String) : Option GrowthRow :=
  match sortedDriveRows filtered_df drive with
  | [] => none
  | [_] => none
  | a :: b :: t =>
      let lastRow := (b :: t).getLast (List.cons_ne_nil b t)
      let growth := lastRow.UsedSpaceGB - a.UsedSpaceGB
      let days := (lastRow.Date - a.Date) / 86400
      some {
        Drive := drive
        Initial := a.UsedSpaceGB
        Current := lastRow.UsedSpaceGB
        Growth := growth
        avg_daily_growth := if 0 < days then growth / (days : Rat) else 0 }

/-- `growth_data` accumulated by the `for drive in selected_drives` loop. -/
def growthData (filtered_df : List Row) (selected_drives : List String) : List GrowthRow :=
  selected_drives.filterMap (driveGrowth filtered_df)

/-- One literal-or-wildcard regex pattern character match under
`re.IGNORECASE`: `.` matches anything but a newline, a literal character
matches up to case. -/
def patCharMatch (p c : Char) : Bool :=
  if p = '.' then c != '\n' else p.toLower == c.toLower

/-- Anchored match of a literal/wildcard pattern at the start of a string. -/
def matchesAt : List Char → List Char → Bool
  | [], _ => true
  | _ :: _, [] => false
  | p :: ps, c :: cs => patCharMatch p c && matchesAt ps cs

/-- `re.search` with `re.IGNORECASE` for patterns made of literal characters
and the `.` wildcard: an unanchored match anywhere in the string. -/
def regexSearch (pat : List Char) : List Char → Bool
  | [] => matchesAt pat []
  | c :: cs => matchesAt pat (c :: cs) || regexSearch pat cs

/-- The search mask of the Data Table tab for one row, given the row's
per-column string forms:
`row.astype(str).str.contains(search_query, case=False, na=False).any()`
(`str.contains` treats the query as a regex; `case=False` is
`re.IGNORECASE`). -/
def rowMatchesSearch (cells : List String) (query : String) : Bool :=
  cells.any (fun cell => regexSearch query.data cell.data)

/-- Modelled from the spec: case-insensitive prefix test, the building block
of plain substring containment. -/
def isPrefixCI : List Char → List Char → Bool
  | [], _ => true
  | _ :: _, [] => false
  | a :: as, b :: bs => (a.toLower == b.toLower) && isPrefixCI as bs

/-- Modelled from the spec: `q` occurs as a contiguous substring of `s`,
compared case-insensitively. -/
def substrCI (q : List Char) : List Char → Bool
  | [] => isPrefixCI q []
  | c :: cs => isPrefixCI q (c :: cs) || substrCI q cs

/-- Modelled from the spec: "a case-insensitive substring match across all
displayed columns' string representations". -/
def spec_containsCI (cell query : String) : Bool :=
  substrCI query.data cell.data

/-- Characters with no special meaning in a Python regular expression. -/
def regexLiteralChar (c : Char) : Bool :=
  !(['.', '^', '$', '*', '+', '?', '\x7b', '\x7d', '[', ']', '\\', '|', '(', ')'].contains c)

/-- A sample reading used to instantiate proved theorems. -/
def rowC1 : Row := ⟨86400 * 10, "C", 100, 40, 60, 60⟩

/-- A later reading of the same drive. -/
def rowC2 : Row := ⟨86400 * 12 + 3600, "C", 100, 55, 45, 45⟩

/-- A reading of a second drive. -/
def rowD1 : Row := ⟨86400 * 11, "D", 200, 150, 50, 25⟩

/-- A small concrete dataframe used to instantiate proved theorems. -/
def sampleDf : List Row := [rowC1, rowC2, rowD1]

/-- The latest reading of drive C in `sampleDf`, as `get_latest_stats` keeps it. -/
def latestC : Row := ⟨86400 * 12 + 3600, "C", 100, 55, 45, 45⟩

/-- The latest reading of drive D in `sampleDf`. -/
def latestD : Row := ⟨86400 * 11, "D", 200, 150, 50, 25⟩

/-- The stats dictionary `get_latest_stats` produces on `sampleDf` with both
drives selected. -/
def statsCD : Stats := ⟨300, 205, 95, 35, 0, [latestC, latestD]⟩

/-- The growth row the Distribution tab produces for drive C of `sampleDf`. -/
def growthC : GrowthRow := ⟨"C", 40, 55, 15, 15 / 2⟩

theorem foldl_min_le_init (l : List Nat) (d : Nat) : l.foldl min d ≤ d := by
  induction l generalizing d with
  | nil => exact le_refl d
  | cons a l ih => exact le_trans (ih (min d a)) (min_le_left d a)

theorem foldl_min_le_mem (l : List Nat) (d x : Nat) : x ∈ l → l.foldl min d ≤ x := by
  induction l generalizing d with
  | nil => intro hx; cases hx
  | cons a l ih =>
      intro hx
      rw [List.foldl_cons]
      rcases List.mem_cons.mp hx with h | h
      · rw [h]
        exact le_trans (foldl_min_le_init l (min d a)) (min_le_right d a)
      · exact ih (min d a) h

theorem foldl_min_mem (l : List Nat) (d : Nat) : l.foldl min d = d ∨ l.foldl min d ∈ l := by
  induction l generalizing d with
  | nil => exact Or.inl rfl
  | cons a l ih =>
      rcases ih (min d a) with h | h
      · rcases min_choice d a with hm | hm
        · exact Or.inl (by rw [List.foldl_cons, h, hm])
        · exact Or.inr (by rw [List.foldl_cons, h, hm]; exact List.mem_cons_self a l)
      · exact Or.inr (List.mem_cons_of_mem a h)

theorem le_foldl_max_init (l : List Nat) (d : Nat) : d ≤ l.foldl max d := by
  induction l generalizing d with
  | nil => exact le_refl d
  | cons a l ih => exact le_trans (le_max_left d a) (ih (max d a))

theorem le_foldl_max_mem (l : List Nat) (d x : Nat) : x ∈ l → x ≤ l.foldl max d := by
  induction l generalizing d with
  | nil => intro hx; cases hx
  | cons a l ih =>
      intro hx
      rw [List.foldl_cons]
      rcases List.mem_cons.mp hx with h | h
      · rw [h]
        exact le_trans (le_max_right d a) (le_foldl_max_init l (max d a))
      · exact ih (max d a) h

theorem foldl_max_mem (l : List Nat) (d : Nat) : l.foldl max d = d ∨ l.foldl max d ∈ l := by
  induction l generalizing d with
  | nil => exact Or.inl rfl
  | cons a l ih =>
      rcases ih (max d a) with h | h
      · rcases max_choice d a with hm | hm
        · exact Or.inl (by rw [List.foldl_cons, h, hm])
        · exact Or.inr (by rw [List.foldl_cons, h, hm]; exact List.mem_cons_self a l)
      · exact Or.inr (List.mem_cons_of_mem a h)

/-- C1 counterexample: at exactly 10.0 the classifier answers Warning, not
Critical, because `free_percent < 10` is false there. -/
theorem C1_boundary_counterexample :
    get_status_text 10 = "Warning" ∧ get_status_class 10 = "status-warning"
    ∧ ¬ get_status_text 10 = "Critical" := by
  refine ⟨by decide, by decide, by decide⟩

/-- C1 (amended): the classifier is a total, non-overlapping partition with
bands Emergency `[0,5)`, Critical `[5,10)`, Warning `[10,20)` and Healthy
`[20,∞)`; each boundary value 5, 10, 20 resolves to the upper band, so
exactly 10.0 yields Warning. -/
theorem C1_partition_boundaries_upper :
    (∀ p : Rat,
      (p < 5 ∧ get_status_text p = "Emergency")
      ∨ (5 ≤ p ∧ p < 10 ∧ get_status_text p = "Critical")
      ∨ (10 ≤ p ∧ p < 20 ∧ get_status_text p = "Warning")
      ∨ (20 ≤ p ∧ get_status_text p = "Healthy"))
    ∧ get_status_text 5 = "Critical"
    ∧ get_status_text 10 = "Warning"
    ∧ get_status_text 20 = "Healthy" := by
  refine ⟨fun p => ?_, by decide, by decide, by decide⟩
  unfold get_status_text
  split_ifs with h1 h2 h3
  · exact Or.inl ⟨h1, rfl⟩
  · exact Or.inr (Or.inl ⟨le_of_not_lt h1, h2, rfl⟩)
  · exact Or.inr (Or.inr (Or.inl ⟨le_of_not_lt h2, h3, rfl⟩))
  · exact Or.inr (Or.inr (Or.inr ⟨le_of_not_lt h3, rfl⟩))

/-- C10: the CSS class, status label and border color always name the same
severity band, since the three helpers test identical thresholds. -/
theorem C10_classifiers_agree (p : Rat) :
    (get_status_class p = "status-emergency" ∧ get_status_text p = "Emergency"
      ∧ get_border_color p = "#ff6b6b")
    ∨ (get_status_class p = "status-critical" ∧ get_status_text p = "Critical"
      ∧ get_border_color p = "#ff8787")
    ∨ (get_status_class p = "status-warning" ∧ get_status_text p = "Warning"
      ∧ get_border_color p = "#ffd43b")
    ∨ (get_status_class p = "status-healthy" ∧ get_status_text p = "Healthy"
      ∧ get_border_color p = "#51cf66") := by
  unfold get_status_class get_status_text get_border_color
  split_ifs <;> simp

/-- C4: the date filter keeps exactly the rows whose calendar date lies
inclusively between `start_date` and `end_date`. -/
theorem C4_date_filter_inclusive (df : List Row) (start_date end_date : Nat) (r : Row) :
    r ∈ filterByDateRange df start_date end_date ↔
      r ∈ df ∧ start_date ≤ tsDate r.Date ∧ tsDate r.Date ≤ end_date := by
  simp [filterByDateRange, List.mem_filter, and_assoc]

/-- C4 witness: a concrete row inside the inclusive range is kept. -/
theorem C4_witness : rowC1 ∈ filterByDateRange sampleDf 9 11 :=
  (C4_date_filter_inclusive sampleDf 9 11 rowC1).mpr ⟨by decide, by decide, by decide⟩

/-- C9: `get_date_range` returns `(today, today)` on an empty frame, the
`.date()`-converted minimum and maximum otherwise, and its first component
never exceeds its second. -/
theorem C9_date_range_spec (today : Nat) (df : List Row) :
    (get_date_range today df).1 ≤ (get_date_range today df).2
    ∧ (df = [] → get_date_range today df = (today, today))
    ∧ (df ≠ [] →
        (∃ r ∈ df, (get_date_range today df).1 = tsDate r.Date)
        ∧ (∀ r ∈ df, (get_date_range today df).1 ≤ tsDate r.Date)
        ∧ (∃ r ∈ df, (get_date_range today df).2 = tsDate r.Date)
        ∧ (∀ r ∈ df, tsDate r.Date ≤ (get_date_range today df).2)) := by
  rcases df with _ | ⟨r, rs⟩
  · exact ⟨le_refl _, fun _ => rfl, fun h => absurd rfl h⟩
  · refine ⟨?_, ?_, ?_⟩
    · exact Nat.div_le_div_right
        (le_trans (foldl_min_le_init (rs.map Row.Date) r.Date)
          (le_foldl_max_init (rs.map Row.Date) r.Date))
    · exact fun h => absurd h (List.cons_ne_nil r rs)
    · refine fun _ => ⟨?_, ?_, ?_, ?_⟩
      · rcases foldl_min_mem (rs.map Row.Date) r.Date with h | h
        · exact ⟨r, List.mem_cons_self r rs, congrArg tsDate h⟩
        · rcases List.mem_map.mp h with ⟨t, ht, hteq⟩
          exact ⟨t, List.mem_cons_of_mem r ht, congrArg tsDate hteq.symm⟩
      · intro t ht
        rcases List.mem_cons.mp ht with h | h
        · rw [h]
          exact Nat.div_le_div_right (foldl_min_le_init (rs.map Row.Date) r.Date)
        · exact Nat.div_le_div_right
            (foldl_min_le_mem (rs.map Row.Date) r.Date t.Date (List.mem_map_of_mem Row.Date h))
      · rcases foldl_max_mem (rs.map Row.Date) r.Date with h | h
        · exact ⟨r, List.mem_cons_self r rs, congrArg tsDate h⟩
        · rcases List.mem_map.mp h with ⟨t, ht, hteq⟩
          exact ⟨t, List.mem_cons_of_mem r ht, congrArg tsDate hteq.symm⟩
      · intro t ht
        rcases List.mem_cons.mp ht with h | h
        · rw [h]
          exact Nat.div_le_div_right (le_foldl_max_init (rs.map Row.Date) r.Date)
        · exact Nat.div_le_div_right
            (le_foldl_max_mem (rs.map Row.Date) r.Date t.Date (List.mem_map_of_mem Row.Date h))

/-- C9 witness: concrete evaluations of `get_date_range` through the theorem. -/
theorem C9_witness :
    get_date_range 0 [] = (0, 0) ∧ (get_date_range 0 sampleDf).1 ≤ (get_date_range 0 sampleDf).2 :=
  ⟨(C9_date_range_spec 0 []).2.1 rfl, (C9_date_range_spec 0 sampleDf).1⟩

/-- C8 counterexample: with a non-empty frame and an empty drive selection
the restriction to the (empty) allow-list has no rows, yet
`get_latest_stats` still returns a populated dictionary, because
`if selected_drives:` treats an empty selection as "do not filter". -/
theorem C8_counterexample :
    ¬ (get_latest_stats [rowC1] [] = none ↔
        ([rowC1] = ([] : List Row)
          ∨ List.filter (fun r => List.contains [] r.Drive) [rowC1] = [])) := by
  decide

/-- C8 (amended): `get_latest_stats` returns `None` exactly when its input
is empty, or when the drive selection is non-empty and restricting the
input to it leaves no rows; an empty selection is falsy and means no
restriction. -/
theorem C8_none_iff (df : List Row) (selected_drives : List String) :
    get_latest_stats df selected_drives = none ↔
      (df = []
        ∨ (selected_drives ≠ []
            ∧ df.filter (fun r => selected_drives.contains r.Drive) = [])) := by
  unfold get_latest_stats driveFilter
  rcases df with _ | ⟨r, rs⟩
  · simp
  · rcases selected_drives with _ | ⟨d, ds⟩
    · simp
    · by_cases hf : List.filter (fun r => (d :: ds).contains r.Drive) (r :: rs) = []
      · simp [hf, and_assoc]
      · simp [hf, List.isEmpty_iff, and_assoc]

/-- C8 witness: a selection naming no present drive yields `None`. -/
theorem C8_witness : get_latest_stats sampleDf ["Z"] = none :=
  (C8_none_iff sampleDf ["Z"]).mpr (Or.inr ⟨by decide, by decide⟩)

theorem firstByDriveAux_subset (l : List Row) :
    ∀ seen, ∀ x ∈ firstByDriveAux seen l, x ∈ l := by
  induction l with
  | nil => intro seen x hx; simp [firstByDriveAux] at hx
  | cons r rs ih =>
      intro seen x hx
      rw [firstByDriveAux] at hx
      by_cases hseen : r.Drive ∈ seen
      · rw [if_pos hseen] at hx
        exact List.mem_cons_of_mem r (ih seen x hx)
      · rw [if_neg hseen] at hx
        rcases List.mem_cons.mp hx with h | h
        · exact h ▸ List.mem_cons_self r rs
        · exact List.mem_cons_of_mem r (ih _ x h)

theorem firstByDriveAux_drive_notin (l : List Row) :
    ∀ seen, ∀ s ∈ firstByDriveAux seen l, s.Drive ∉ seen := by
  induction l with
  | nil => intro seen s hs; simp [firstByDriveAux] at hs
  | cons r rs ih =>
      intro seen s hs
      rw [firstByDriveAux] at hs
      by_cases hseen : r.Drive ∈ seen
      · rw [if_pos hseen] at hs
        exact ih seen s hs
      · rw [if_neg hseen] at hs
        rcases List.mem_cons.mp hs with h | h
        · exact h ▸ hseen
        · intro hmem
          exact ih (r.Drive :: seen) s h (List.mem_cons_of_mem _ hmem)

theorem firstByDriveAux_drives_nodup (l : List Row) :
    ∀ seen, ((firstByDriveAux seen l).map Row.Drive).Nodup := by
  induction l with
  | nil => intro seen; simp [firstByDriveAux]
  | cons r rs ih =>
      intro seen
      rw [firstByDriveAux]
      by_cases hseen : r.Drive ∈ seen
      · rw [if_pos hseen]
        exact ih seen
      · rw [if_neg hseen, List.map_cons, List.nodup_cons]
        refine ⟨?_, ih (r.Drive :: seen)⟩
        intro hmem
        rcases List.mem_map.mp hmem with ⟨s, hs, hds⟩
        have hin : s.Drive ∈ r.Drive :: seen := by
          rw [hds]
          exact List.mem_cons_self _ _
        exact firstByDriveAux_drive_notin rs (r.Drive :: seen) s hs hin

theorem firstByDriveAux_cover (l : List Row) :
    ∀ seen, ∀ t ∈ l, t.Drive ∉ seen → ∃ s ∈ firstByDriveAux seen l, s.Drive = t.Drive := by
  induction l with
  | nil => intro seen t ht; cases ht
  | cons r rs ih =>
      intro seen t ht htseen
      rw [firstByDriveAux]
      by_cases hseen : r.Drive ∈ seen
      · rw [if_pos hseen]
        rcases List.mem_cons.mp ht with h | h
        · exact absurd (by rw [h]; exact hseen) htseen
        · exact ih seen t h htseen
      · rw [if_neg hseen]
        rcases List.mem_cons.mp ht with h | h
        · exact ⟨r, List.mem_cons_self _ _, by rw [h]⟩
        · by_cases hd : t.Drive = r.Drive
          · exact ⟨r, List.mem_cons_self _ _, hd.symm⟩
          · have hnotin : t.Drive ∉ r.Drive :: seen := by
              intro hm
              rcases List.mem_cons.mp hm with hm1 | hm2
              · exact hd hm1
              · exact htseen hm2
            rcases ih (r.Drive :: seen) t h hnotin with ⟨s, hs, hds⟩
            exact ⟨s, List.mem_cons_of_mem _ hs, hds⟩

theorem firstByDriveAux_max (l : List Row) :
    ∀ seen, List.Sorted dateGE l →
      ∀ s ∈ firstByDriveAux seen l, ∀ t ∈ l, t.Drive = s.Drive → t.Date ≤ s.Date := by
  induction l with
  | nil => intro seen _ s hs; simp [firstByDriveAux] at hs
  | cons r rs ih =>
      intro seen hl s hs t ht hdrive
      have hr : ∀ b ∈ rs, dateGE r b := List.rel_of_sorted_cons hl
      have hrs : List.Sorted dateGE rs := hl.of_cons
      rw [firstByDriveAux] at hs
      by_cases hseen : r.Drive ∈ seen
      · rw [if_pos hseen] at hs
        have hsnotin : s.Drive ∉ seen := firstByDriveAux_drive_notin rs seen s hs
        rcases List.mem_cons.mp ht with htr | ht2
        · exfalso
          apply hsnotin
          rw [← hdrive, htr]
          exact hseen
        · exact ih seen hrs s hs t ht2 hdrive
      · rw [if_neg hseen] at hs
        rcases List.mem_cons.mp hs with hsr | hs2
        · subst hsr
          rcases List.mem_cons.mp ht with htr | ht2
          · rw [htr]
          · exact hr t ht2
        · have hsnotin : s.Drive ∉ r.Drive :: seen :=
            firstByDriveAux_drive_notin rs (r.Drive :: seen) s hs2
          have hsDr : s.Drive ≠ r.Drive := by
            intro he
            apply hsnotin
            rw [he]
            exact List.mem_cons_self _ _
          rcases List.mem_cons.mp ht with htr | ht2
          · exfalso
            apply hsDr
            rw [← hdrive, htr]
          · exact ih (r.Drive :: seen) hrs s hs2 t ht2 hdrive

theorem firstByDrive_subset (l : List Row) : ∀ x ∈ firstByDrive l, x ∈ l :=
  firstByDriveAux_subset l []

theorem firstByDrive_drives_nodup (l : List Row) : ((firstByDrive l).map Row.Drive).Nodup :=
  firstByDriveAux_drives_nodup l []

theorem firstByDrive_cover (l : List Row) : ∀ t ∈ l, ∃ s ∈ firstByDrive l, s.Drive = t.Drive :=
  fun t ht => firstByDriveAux_cover l [] t ht (List.not_mem_nil t.Drive)

theorem firstByDrive_max (l : List Row) :
    List.Sorted dateGE l →
      ∀ s ∈ firstByDrive l, ∀ t ∈ l, t.Drive = s.Drive → t.Date ≤ s.Date :=
  firstByDriveAux_max l []

theorem get_latest_stats_eq_some (df : List Row) (sel : List String) (s : Stats) :
    get_latest_stats df sel = some s →
      s = { total_size := ((latestRows (driveFilter df sel)).map Row.TotalSizeGB).sum
            total_used := ((latestRows (driveFilter df sel)).map Row.UsedSpaceGB).sum
            total_free := ((latestRows (driveFilter df sel)).map Row.FreeSpaceGB).sum
            avg_free_percent := ((latestRows (driveFilter df sel)).map Row.FreeSpacePercent).sum
              / ((latestRows (driveFilter df sel)).length : Rat)
            critical_drives :=
              ((latestRows (driveFilter df sel)).filter (fun r => r.FreeSpacePercent < 10)).length
            latest_data := latestRows (driveFilter df sel) } := by
  intro h
  simp only [get_latest_stats] at h
  split at h
  · cases h
  · split at h
    · cases h
    · exact (Option.some.inj h).symm

/-- C2: whenever `get_latest_stats` returns a dictionary, its `latest_data`
has pairwise-distinct drives, every row of it is a row of the
drive-filtered input whose date dominates all same-drive rows, and every
drive of the filtered input is represented. -/
theorem C2_one_latest_row_per_drive (df : List Row) (selected_drives : List String) (s : Stats)
    (h : get_latest_stats df selected_drives = some s) :
    (s.latest_data.map Row.Drive).Nodup
    ∧ (∀ r ∈ s.latest_data,
        r ∈ driveFilter df selected_drives
        ∧ ∀ t ∈ driveFilter df selected_drives, t.Drive = r.Drive → t.Date ≤ r.Date)
    ∧ (∀ t ∈ driveFilter df selected_drives, ∃ r ∈ s.latest_data, r.Drive = t.Drive) := by
  have hld : s.latest_data = latestRows (driveFilter df selected_drives) :=
    congrArg Stats.latest_data (get_latest_stats_eq_some df selected_drives s h)
  rw [hld]
  unfold latestRows
  have hperm1 : List.Perm (List.insertionSort dateGE (driveFilter df selected_drives))
      (driveFilter df selected_drives) := List.perm_insertionSort _ _
  have hsort : List.Sorted dateGE (List.insertionSort dateGE (driveFilter df selected_drives)) :=
    List.sorted_insertionSort _ _
  have hperm2 :
      List.Perm
        (List.insertionSort driveLE
          (firstByDrive (List.insertionSort dateGE (driveFilter df selected_drives))))
        (firstByDrive (List.insertionSort dateGE (driveFilter df selected_drives))) :=
    List.perm_insertionSort _ _
  refine ⟨?_, ?_, ?_⟩
  · exact ((hperm2.map Row.Drive).nodup_iff).mpr (firstByDrive_drives_nodup _)
  · intro r hr
    have hr1 := hperm2.mem_iff.mp hr
    refine ⟨hperm1.mem_iff.mp (firstByDrive_subset _ r hr1), ?_⟩
    intro t ht hdrive
    exact firstByDrive_max _ hsort r hr1 t (hperm1.mem_iff.mpr ht) hdrive
  · intro t ht
    rcases firstByDrive_cover _ t (hperm1.mem_iff.mpr ht) with ⟨q, hq, hdq⟩
    exact ⟨q, hperm2.mem_iff.mpr hq, hdq⟩

theorem get_latest_stats_sample : get_latest_stats sampleDf ["C", "D"] = some statsCD := by
  have hld : latestRows (driveFilter sampleDf ["C", "D"]) = [latestC, latestD] := by decide
  simp only [get_latest_stats]
  rw [if_neg (by decide), if_neg (by decide), hld]
  norm_num [statsCD, latestC, latestD, Stats.mk.injEq]

/-- C2 witness: the theorem instantiated on `sampleDf` with both drives
selected. -/
theorem C2_witness :
    (statsCD.latest_data.map Row.Drive).Nodup
    ∧ (∀ r ∈ statsCD.latest_data,
        r ∈ driveFilter sampleDf ["C", "D"]
        ∧ ∀ t ∈ driveFilter sampleDf ["C", "D"], t.Drive = r.Drive → t.Date ≤ r.Date)
    ∧ (∀ t ∈ driveFilter sampleDf ["C", "D"], ∃ r ∈ statsCD.latest_data, r.Drive = t.Drive) :=
  C2_one_latest_row_per_drive sampleDf ["C", "D"] statsCD get_latest_stats_sample

/-- C3: the returned totals are the sums, the average the mean, and the
critical count the number of sub-10% rows, all over `latest_data`. -/
theorem C3_stats_fields (df : List Row) (selected_drives : List String) (s : Stats)
    (h : get_latest_stats df selected_drives = some s) :
    s.total_size = (s.latest_data.map Row.TotalSizeGB).sum
    ∧ s.total_used = (s.latest_data.map Row.UsedSpaceGB).sum
    ∧ s.total_free = (s.latest_data.map Row.FreeSpaceGB).sum
    ∧ s.avg_free_percent
        = (s.latest_data.map Row.FreeSpacePercent).sum / (s.latest_data.length : Rat)
    ∧ s.critical_drives = (s.latest_data.filter (fun r => r.FreeSpacePercent < 10)).length := by
  rw [get_latest_stats_eq_some df selected_drives s h]
  exact ⟨rfl, rfl, rfl, rfl, rfl⟩

/-- C3 witness: the theorem instantiated on `sampleDf`. -/
theorem C3_witness :
    statsCD.total_size = (statsCD.latest_data.map Row.TotalSizeGB).sum
    ∧ statsCD.total_used = (statsCD.latest_data.map Row.UsedSpaceGB).sum
    ∧ statsCD.total_free = (statsCD.latest_data.map Row.FreeSpaceGB).sum
    ∧ statsCD.avg_free_percent
        = (statsCD.latest_data.map Row.FreeSpacePercent).sum / (statsCD.latest_data.length : Rat)
    ∧ statsCD.critical_drives
        = (statsCD.latest_data.filter (fun r => r.FreeSpacePercent < 10)).length :=
  C3_stats_fields sampleDf ["C", "D"] statsCD get_latest_stats_sample

theorem driveGrowth_drive_eq (f : List Row) (d : String) (g : GrowthRow) :
    driveGrowth f d = some g → g.Drive = d := by
  intro h
  unfold driveGrowth at h
  split at h
  · cases h
  · cases h
  · rw [← Option.some.inj h]

theorem driveGrowth_none_of_one (f : List Row) (d : String)
    (h1 : (sortedDriveRows f d).length = 1) : driveGrowth f d = none := by
  rcases hdd : sortedDriveRows f d with _ | ⟨a, _ | ⟨b, t⟩⟩
  · rw [hdd] at h1
    simp at h1
  · unfold driveGrowth
    rw [hdd]
  · rw [hdd] at h1
    simp at h1

theorem driveGrowth_fields (f : List Row) (d : String) (a b : Row) (t : List Row) (g : GrowthRow)
    (hdd : sortedDriveRows f d = a :: b :: t)
    (hg : driveGrowth f d = some g) :
    g.Drive = d
    ∧ g.Initial = a.UsedSpaceGB
    ∧ g.Current = ((b :: t).getLast (List.cons_ne_nil b t)).UsedSpaceGB
    ∧ g.Growth = ((b :: t).getLast (List.cons_ne_nil b t)).UsedSpaceGB - a.UsedSpaceGB
    ∧ g.avg_daily_growth =
        (if 0 < (((b :: t).getLast (List.cons_ne_nil b t)).Date - a.Date) / 86400 then
          g.Growth
            / (((((b :: t).getLast (List.cons_ne_nil b t)).Date - a.Date) / 86400 : Nat) : Rat)
        else 0) := by
  unfold driveGrowth at hg
  rw [hdd] at hg
  rw [← Option.some.inj hg]
  exact ⟨rfl, rfl, rfl, rfl, rfl⟩

/-- C5: every selected drive with at least two rows in range yields a
growth entry whose `Growth` is last-minus-first `UsedSpaceGB` of its
date-sorted rows, and a drive with exactly one row yields no entry. -/
theorem C5_growth_rows (filtered_df : List Row) (selected_drives : List String) (drive : String)
    (hmem : drive ∈ selected_drives) :
    (2 ≤ (sortedDriveRows filtered_df drive).length →
      ∃ g ∈ growthData filtered_df selected_drives,
        g.Drive = drive
        ∧ ∃ fr ∈ (sortedDriveRows filtered_df drive).head?,
            ∃ lr ∈ (sortedDriveRows filtered_df drive).getLast?,
              g.Initial = fr.UsedSpaceGB ∧ g.Current = lr.UsedSpaceGB
              ∧ g.Growth = lr.UsedSpaceGB - fr.UsedSpaceGB)
    ∧ ((sortedDriveRows filtered_df drive).length = 1 →
        ∀ g ∈ growthData filtered_df selected_drives, g.Drive ≠ drive) := by
  constructor
  · intro hlen
    rcases hdd : sortedDriveRows filtered_df drive with _ | ⟨a, _ | ⟨b, t⟩⟩
    · rw [hdd] at hlen
      simp at hlen
    · rw [hdd] at hlen
      simp at hlen
    · obtain ⟨g, hg⟩ : ∃ g, driveGrowth filtered_df drive = some g := by
        unfold driveGrowth
        rw [hdd]
        exact ⟨_, rfl⟩
      obtain ⟨hgd, hgi, hgc, hggr, _⟩ := driveGrowth_fields _ _ a b t g hdd hg
      refine ⟨g, List.mem_filterMap.mpr ⟨drive, hmem, hg⟩, hgd, a, rfl,
        (b :: t).getLast (List.cons_ne_nil b t), ?_, hgi, hgc, hggr⟩
      rw [List.getLast?_cons_cons,
        List.getLast?_eq_getLast (b :: t) (List.cons_ne_nil b t)]
      rfl
  · intro hlen g hgmem
    intro hgd
    rcases List.mem_filterMap.mp hgmem with ⟨d2, _, hgd2⟩
    have hge : g.Drive = d2 := driveGrowth_drive_eq _ _ _ hgd2
    have hd2 : d2 = drive := by rw [← hge, hgd]
    rw [hd2, driveGrowth_none_of_one filtered_df drive hlen] at hgd2
    cases hgd2

/-- C5 witness: the theorem instantiated at drive C of `sampleDf`. -/
theorem C5_witness :
    (2 ≤ (sortedDriveRows sampleDf "C").length →
      ∃ g ∈ growthData sampleDf ["C", "D"],
        g.Drive = "C"
        ∧ ∃ fr ∈ (sortedDriveRows sampleDf "C").head?,
            ∃ lr ∈ (sortedDriveRows sampleDf "C").getLast?,
              g.Initial = fr.UsedSpaceGB ∧ g.Current = lr.UsedSpaceGB
              ∧ g.Growth = lr.UsedSpaceGB - fr.UsedSpaceGB)
    ∧ ((sortedDriveRows sampleDf "C").length = 1 →
        ∀ g ∈ growthData sampleDf ["C", "D"], g.Drive ≠ "C") :=
  C5_growth_rows sampleDf ["C", "D"] "C" (by decide)

/-- C6: the average daily growth of a produced growth entry is its growth
divided by the whole-day span between first and last date-sorted reading,
and is 0 when that span is 0 whole days, the guarded division never running
with a zero divisor. -/
theorem C6_avg_daily_growth (filtered_df : List Row) (drive : String) (g : GrowthRow)
    (hg : driveGrowth filtered_df drive = some g) :
    ∃ fr ∈ (sortedDriveRows filtered_df drive).head?,
      ∃ lr ∈ (sortedDriveRows filtered_df drive).getLast?,
        fr.Date ≤ lr.Date
        ∧ ((lr.Date - fr.Date) / 86400 = 0 → g.avg_daily_growth = 0)
        ∧ (0 < (lr.Date - fr.Date) / 86400 →
            g.avg_daily_growth = g.Growth / ((((lr.Date - fr.Date) / 86400 : Nat)) : Rat)) := by
  rcases hdd : sortedDriveRows filtered_df drive with _ | ⟨a, _ | ⟨b, t⟩⟩
  · unfold driveGrowth at hg
    rw [hdd] at hg
    cases hg
  · unfold driveGrowth at hg
    rw [hdd] at hg
    cases hg
  · obtain ⟨_, _, _, _, havg⟩ := driveGrowth_fields _ _ a b t g hdd hg
    have hsorted : List.Sorted dateLE (sortedDriveRows filtered_df drive) :=
      List.sorted_insertionSort dateLE _
    rw [hdd] at hsorted
    have hlastmem : (b :: t).getLast (List.cons_ne_nil b t) ∈ b :: t :=
      List.getLast_mem (List.cons_ne_nil b t)
    have hle : a.Date ≤ ((b :: t).getLast (List.cons_ne_nil b t)).Date :=
      List.rel_of_sorted_cons hsorted _ hlastmem
    refine ⟨a, rfl, (b :: t).getLast (List.cons_ne_nil b t), ?_, hle, ?_, ?_⟩
    · rw [List.getLast?_cons_cons,
        List.getLast?_eq_getLast (b :: t) (List.cons_ne_nil b t)]
      rfl
    · intro hz
      rw [havg, hz, if_neg (Nat.lt_irrefl 0)]
    · intro hpos
      rw [havg, if_pos hpos]

theorem driveGrowth_sample : driveGrowth sampleDf "C" = some growthC := by
  have hdd : sortedDriveRows sampleDf "C" = [rowC1, rowC2] := by decide
  unfold driveGrowth
  rw [hdd]
  norm_num [rowC1, rowC2, growthC, GrowthRow.mk.injEq]

/-- C6 witness: the theorem instantiated at drive C of `sampleDf`, whose two
readings are two whole days apart. -/
theorem C6_witness :
    ∃ fr ∈ (sortedDriveRows sampleDf "C").head?,
      ∃ lr ∈ (sortedDriveRows sampleDf "C").getLast?,
        fr.Date ≤ lr.Date
        ∧ ((lr.Date - fr.Date) / 86400 = 0 → growthC.avg_daily_growth = 0)
        ∧ (0 < (lr.Date - fr.Date) / 86400 →
            growthC.avg_daily_growth
              = growthC.Growth / ((((lr.Date - fr.Date) / 86400 : Nat)) : Rat)) :=
  C6_avg_daily_growth sampleDf "C" growthC driveGrowth_sample

theorem patCharMatch_literal (p : Char) (hp : regexLiteralChar p = true) (c : Char) :
    patCharMatch p c = (p.toLower == c.toLower) := by
  have hne : p ≠ '.' := by
    intro he
    rw [he] at hp
    exact absurd hp (by decide)
  unfold patCharMatch
  rw [if_neg hne]

theorem matchesAt_literal (pat : List Char) (hp : ∀ c ∈ pat, regexLiteralChar c = true) :
    ∀ s, matchesAt pat s = isPrefixCI pat s := by
  induction pat with
  | nil => intro s; cases s <;> rfl
  | cons p ps ih =>
      intro s
      cases s with
      | nil => rfl
      | cons c cs =>
          simp only [matchesAt, isPrefixCI]
          rw [patCharMatch_literal p (hp p (List.mem_cons_self _ _)) c,
            ih (fun c hc => hp c (List.mem_cons_of_mem _ hc)) cs]

theorem regexSearch_literal (pat : List Char) (hp : ∀ c ∈ pat, regexLiteralChar c = true) :
    ∀ s, regexSearch pat s = substrCI pat s := by
  intro s
  induction s with
  | nil =>
      simp only [regexSearch, substrCI]
      exact matchesAt_literal pat hp []
  | cons c cs ih =>
      simp only [regexSearch, substrCI]
      rw [matchesAt_literal pat hp, ih]

/-- C7 counterexample: the query `1.5` keeps a row none of whose column
strings contains `1.5` as a substring, because `str.contains` reads the
query as a regular expression and `.` matches the `2` of `C125`. -/
theorem C7_regex_counterexample :
    rowMatchesSearch ["2024-01-03 00:00:00", "C125", "50.0", "20.0", "30.0", "60.0"] "1.5" = true
    ∧ (["2024-01-03 00:00:00", "C125", "50.0", "20.0", "30.0", "60.0"].all
        fun cell => !(spec_containsCI cell "1.5")) = true := by
  constructor
  · decide
  · decide

/-- C7 (amended): the search treats the query as a case-insensitive regular
expression matched anywhere in each column's string form; for queries made
only of regex-literal characters this coincides with case-insensitive
substring containment, OR-ed across columns. -/
theorem C7_search_literal_substring (cells : List String) (query : String)
    (hq : ∀ c ∈ query.data, regexLiteralChar c = true) :
    rowMatchesSearch cells query = true ↔
      ∃ cell ∈ cells, spec_containsCI cell query = true := by
  unfold rowMatchesSearch
  rw [List.any_eq_true]
  constructor
  · rintro ⟨cell, hc, hm⟩
    refine ⟨cell, hc, ?_⟩
    unfold spec_containsCI
    rw [← regexSearch_literal query.data hq]
    exact hm
  · rintro ⟨cell, hc, hm⟩
    refine ⟨cell, hc, ?_⟩
    rw [regexSearch_literal query.data hq]
    exact hm

/-- C7 witness: a literal query matching case-insensitively. -/
theorem C7_witness : rowMatchesSearch ["C125", "50.0"] "c12" = true :=
  (C7_search_literal_substring ["C125", "50.0"] "c12" (by decide)).mpr
    ⟨"C125", by decide, by decide⟩
